import Mathlib

/-!
Shallow embedding of the Smart-Home-Automation-Language program
(`src/proyect.py`): the rule DSL parser (`parse_rule`), the rule
execution engine (`execute_rules`), rule-collection maintenance
(`add_rule`, `remove_rule`) and the natural-language translator
(`natural_language_to_rule`).

Strings are modelled as `List Char`.  The Python device dictionary is
modelled as an insertion-ordered association list from key strings to
typed values (`Value`), with dictionary assignment (`setD`) replacing
the value of an existing key in place and appending a fresh key at the
end, exactly as a Python `dict` behaves.  The regular-expression
searches of the source are modelled by explicit leftmost substring
scans with the same capture behaviour.
-/

abbrev StrL := List Char

def str (s : String) : StrL := s.toList

/-- Boolean test that `p` is an initial segment of `s` (character equality). -/
def strPre : StrL → StrL → Bool
  | [], _ => true
  | _ :: _, [] => false
  | a :: as, b :: bs => a == b && strPre as bs

/-- Boolean substring test, modelling the Python operator `in` on strings. -/
def occursInL (needle : StrL) : StrL → Bool
  | [] => strPre needle []
  | c :: t => strPre needle (c :: t) || occursInL needle t

/-- Numeric value of a digit string, modelling Python `int` on a `\d+` capture. -/
def natOfDigits (ds : StrL) : Nat :=
  ds.foldl (fun n c => 10 * n + (c.toNat - 48)) 0

/-- Leftmost search for the literal `lit` followed by a successful capture
`cap` on the remainder; models `re.search(lit + group, s)` where the whole
pattern starts with the fixed literal `lit`. -/
def searchLitThen (lit : StrL) (cap : StrL → Option StrL) : StrL → Option StrL
  | [] => none
  | c :: t =>
    match (if strPre lit (c :: t) then cap ((c :: t).drop lit.length) else none) with
    | some v => some v
    | none => searchLitThen lit cap t

/-- Capture for `(\d+)`: the maximal nonempty digit run at the start. -/
def digitsCap (s : StrL) : Option StrL :=
  let ds := s.takeWhile Char.isDigit
  if ds.isEmpty then none else some ds

/-- Capture for `(\d{2}:\d{2})` at the start of the remainder. -/
def hhmmCap (s : StrL) : Option StrL :=
  match s with
  | a :: b :: c :: d :: e :: _ =>
    if a.isDigit && b.isDigit && c == ':' && d.isDigit && e.isDigit then
      some [a, b, c, d, e]
    else none
  | _ => none

/-- Capture for `(\d{1,2}:\d{2})` at the start of the remainder: the greedy
two-digit hour is tried first, then the regex engine backtracks to one digit. -/
def hmCap (s : StrL) : Option StrL :=
  match s with
  | a :: b :: c :: d :: e :: _ =>
    if a.isDigit && b.isDigit && c == ':' && d.isDigit && e.isDigit then
      some [a, b, c, d, e]
    else if a.isDigit && b == ':' && c.isDigit && d.isDigit then
      some [a, b, c, d]
    else none
  | [a, b, c, d] =>
    if a.isDigit && b == ':' && c.isDigit && d.isDigit then some [a, b, c, d] else none
  | _ => none

inductive TOp where
  | gt
  | lt
  | ge
  | le
deriving DecidableEq, Repr

inductive Condition where
  | temp (op : TOp) (value : Int)
  | timeC (value : StrL)
  | motionC (value : Bool)
deriving DecidableEq, Repr

/-- The four temperature regex patterns of `parse_rule`, in source order:
`temperature > (\d+)`, `temperature < (\d+)`, `temperature >= (\d+)`,
`temperature <= (\d+)`.  Each literal includes the space after the operator. -/
def tempPatterns : List (StrL × TOp) :=
  [(str "temperature > ", TOp.gt), (str "temperature < ", TOp.lt),
   (str "temperature >= ", TOp.ge), (str "temperature <= ", TOp.le)]

/-- The fixed action phrase table of `parse_rule`, in dict insertion order. -/
def action_patterns : List (StrL × (StrL × Bool)) :=
  [(str "turn on lights", (str "lights", true)),
   (str "turn off lights", (str "lights", false)),
   (str "turn on ac", (str "ac", true)),
   (str "turn off ac", (str "ac", false)),
   (str "turn on heating", (str "heating", true)),
   (str "turn off heating", (str "heating", false)),
   (str "turn on security", (str "security", true)),
   (str "turn off security", (str "security", false)),
   (str "turn on motion", (str "motion", true)),
   (str "turn off motion", (str "motion", false))]

/-- Embedding of `SmartHomeSystem.parse_rule`: each temperature pattern is
searched independently; a `time is HH:MM` equality condition and a
`motion detected` condition are recognized from literal substrings; every
action phrase present as a substring contributes one action, in table order. -/
def parse_rule (rule : StrL) : List Condition × List (StrL × Bool) :=
  let tempConds := tempPatterns.filterMap fun p =>
    (searchLitThen p.1 digitsCap rule).map fun ds =>
      Condition.temp p.2 (Int.ofNat (natOfDigits ds))
  let timeConds :=
    if occursInL (str "time is") rule then
      match searchLitThen (str "time is ") hhmmCap rule with
      | some v => [Condition.timeC v]
      | none => []
    else []
  let motionConds :=
    if occursInL (str "motion detected") rule then [Condition.motionC true] else []
  let acts := (action_patterns.filter fun p => occursInL p.1 rule).map Prod.snd
  (tempConds ++ timeConds ++ motionConds, acts)

inductive Value where
  | vb (b : Bool)
  | vi (n : Int)
  | vs (s : StrL)
deriving DecidableEq, Repr

/-- Insertion-ordered association list modelling the Python `devices` dict. -/
abbrev DeviceMap := List (StrL × Value)

def lookupD (k : StrL) : DeviceMap → Option Value
  | [] => none
  | (k1, v) :: t => if k = k1 then some v else lookupD k t

/-- Dictionary assignment `d[k] = v`: overwrite in place, append if absent. -/
def setD (k : StrL) (v : Value) : DeviceMap → DeviceMap
  | [] => [(k, v)]
  | (k1, v1) :: t => if k = k1 then (k, v) :: t else (k1, v1) :: setD k v t

/-- Condition check of `execute_rules` against the device state: a rule is
dropped as soon as one condition fails; temperature conditions compare the
stored integer, time conditions are string equality, motion conditions are
boolean equality. -/
def evalCond (d : DeviceMap) : Condition → Bool
  | Condition.temp op v =>
    match lookupD (str "temperature") d with
    | some (Value.vi t) =>
      match op with
      | TOp.gt => decide (t > v)
      | TOp.lt => decide (t < v)
      | TOp.ge => decide (t ≥ v)
      | TOp.le => decide (t ≤ v)
    | _ => false
  | Condition.timeC v =>
    match lookupD (str "time") d with
    | some (Value.vs s) => s == v
    | _ => false
  | Condition.motionC b =>
    match lookupD (str "motion") d with
    | some (Value.vb m) => m == b
    | _ => false

/-- Entry appended to `executed_rules` for a changed action: the source
appends the f-string `✓ {rule}`. -/
def marked (rule : StrL) : StrL := str "✓ " ++ rule

/-- Action loop of `execute_rules` for one satisfied rule: each action writes
its target value and the rule text is reported once per action whose old
stored value differed from the written one. -/
def applyActs (rule : StrL) : List (StrL × Bool) → DeviceMap → DeviceMap × List StrL
  | [], d => (d, [])
  | a :: rest, d =>
    let old := lookupD a.1 d
    let d1 := setD a.1 (Value.vb a.2) d
    let rep : List StrL := if old = some (Value.vb a.2) then [] else [marked rule]
    let p := applyActs rule rest d1
    (p.1, rep ++ p.2)

/-- One iteration of the rule loop of `execute_rules`: parse the rule, check
all conditions, and apply the actions when every condition holds and the
action list is nonempty. -/
def runRuleD (rule : StrL) (d : DeviceMap) : DeviceMap × List StrL :=
  let pc := parse_rule rule
  if pc.1.all (evalCond d) && !pc.2.isEmpty then applyActs rule pc.2 d else (d, [])

/-- Full pass of `execute_rules` over the rule list, threading the mutated
device state and concatenating the reported entries in pass order. -/
def execPass : List StrL → DeviceMap → DeviceMap × List StrL
  | [], d => (d, [])
  | r :: rest, d =>
    let p1 := runRuleD r d
    let p2 := execPass rest p1.1
    (p2.1, p1.2 ++ p2.2)

structure SmartHomeSystem where
  devices : DeviceMap
  rules : List StrL
deriving DecidableEq, Repr

/-- Device dictionary of `SmartHomeSystem.__init__`, in insertion order. -/
def mkDevices (lights ac heating security : Bool) (temperature : Int)
    (motion : Bool) (time : StrL) : DeviceMap :=
  [(str "lights", Value.vb lights), (str "ac", Value.vb ac),
   (str "heating", Value.vb heating), (str "security", Value.vb security),
   (str "temperature", Value.vi temperature), (str "motion", Value.vb motion),
   (str "time", Value.vs time)]

def default_devices : DeviceMap := mkDevices false false false false 22 false (str "17:00")

def default_rules : List StrL :=
  [str "IF temperature > 25 THEN turn on ac",
   str "IF motion detected THEN turn on security",
   str "IF time is 18:00 THEN turn on lights"]

/-- Embedding of `SmartHomeSystem.execute_rules`: runs the pass over the
stored rules against the stored devices and returns the updated system
together with the `executed_rules` list. -/
def execute_rules (sys : SmartHomeSystem) : SmartHomeSystem × List StrL :=
  let p := execPass sys.rules sys.devices
  ({ sys with devices := p.1 }, p.2)

/-- Embedding of `SmartHomeSystem.add_rule`: a nonempty rule text not already
present is appended; otherwise the system is unchanged. -/
def add_rule (sys : SmartHomeSystem) (rule : StrL) : SmartHomeSystem :=
  if rule ≠ [] ∧ rule ∉ sys.rules then { sys with rules := sys.rules ++ [rule] } else sys

/-- Embedding of `SmartHomeSystem.remove_rule`: an index inside `[0, len)`
removes that rule; otherwise the system is unchanged. -/
def remove_rule (sys : SmartHomeSystem) (index : Int) : SmartHomeSystem :=
  if 0 ≤ index ∧ index < sys.rules.length then
    { sys with rules := sys.rules.eraseIdx index.toNat }
  else sys

def keysOf (d : DeviceMap) : List StrL := d.map Prod.fst

def deviceKeys : List StrL :=
  [str "lights", str "ac", str "heating", str "security", str "temperature",
   str "motion", str "time"]

/-- ASCII lower-casing of one character, modelling `str.lower()` on the
letters the program's vocabularies use. -/
def toLowerCh (c : Char) : Char :=
  if h : 65 ≤ c.toNat ∧ c.toNat ≤ 90 then
    ⟨UInt32.ofNat (c.toNat + 32), by
      have hv : (UInt32.ofNat (c.toNat + 32)).toNat = (c.toNat + 32) % UInt32.size := rfl
      rw [UInt32.isValidChar, hv, Nat.mod_eq_of_lt (by
        have hs : UInt32.size = 4294967296 := rfl
        omega)]
      left
      omega⟩
  else c

def lowerStr (s : StrL) : StrL := s.map toLowerCh

/-- Word character class of the regex `\b` boundary (`[a-zA-Z0-9_]`). -/
def isWordChar (c : Char) : Bool := c.isAlphanum || c == '_'

/-- Whole-word match of `w` at the head of `s`, given the character just
before this position (`none` at the start of the text). -/
def wordAt (w s : StrL) (prev : Option Char) : Bool :=
  strPre w s &&
    (match prev with
     | none => true
     | some c => !isWordChar c) &&
    (match s.drop w.length with
     | [] => true
     | c :: _ => !isWordChar c)

def wordSearch (w : StrL) : Option Char → StrL → Bool
  | _, [] => false
  | prev, c :: t => wordAt w (c :: t) prev || wordSearch w (some c) t

/-- Successful `re.search` of `\bw\b` in `s`. -/
def wordOccurs (w s : StrL) : Bool := wordSearch w none s

/-- Python `any(word in text for word in words)`. -/
def anyOccurs (ws : List StrL) (s : StrL) : Bool := ws.any fun w => occursInL w s

/-- Condition-fragment collection of `natural_language_to_rule`: one
mutually-exclusive temperature descriptor, then the three time-of-day
interval phrases, then motion keywords, each appended with a membership
guard as in the source. -/
def nlrConditions (tl : StrL) : List StrL :=
  let c1 : List StrL :=
    if wordOccurs (str "hot") tl || wordOccurs (str "warm") tl then
      [str "temperature > 25"]
    else if wordOccurs (str "cold") tl || wordOccurs (str "cool") tl ||
        wordOccurs (str "chilly") tl then
      [str "temperature < 18"]
    else if occursInL (str "comfortable") tl || occursInL (str "normal temperature") tl then
      [str "temperature >= 18 AND temperature <= 22"]
    else []
  let eveC := str "time >= 18:00 AND time < 22:00"
  let c2 :=
    if anyOccurs [str "in the evening", str "evening", str "at night", str "dark"] tl then
      if eveC ∈ c1 then c1 else c1 ++ [eveC]
    else c1
  let morC := str "time >= 06:00 AND time < 10:00"
  let c3 :=
    if anyOccurs [str "morning", str "in the morning", str "dawn"] tl then
      if morC ∈ c2 then c2 else c2 ++ [morC]
    else c2
  let aftC := str "time >= 12:00 AND time < 18:00"
  let c4 :=
    if anyOccurs [str "afternoon", str "in the afternoon"] tl then
      if aftC ∈ c3 then c3 else c3 ++ [aftC]
    else c3
  let motC := str "motion detected"
  if anyOccurs [str "motion", str "movement", str "detect"] tl then
    if motC ∈ c4 then c4 else c4 ++ [motC]
  else c4

/-- Direct-command fragments of `natural_language_to_rule`: the
`set time to (\d{1,2}:\d{2})` and `set temperature to (\d+)` patterns. -/
def nlrDirect (tl : StrL) : List StrL :=
  (match searchLitThen (str "set time to ") hmCap tl with
   | some cap => [str "set time to " ++ cap]
   | none => []) ++
  (match searchLitThen (str "set temperature to ") digitsCap tl with
   | some ds => [str "set temperature to " ++ ds]
   | none => [])

/-- Device synonym table `action_map` of the translator, in dict order. -/
def action_map : List (StrL × List StrL) :=
  [(str "lights", [str "light", str "lights"]),
   (str "ac", [str "ac", str "air conditioning", str "cooling"]),
   (str "heating", [str "heating", str "heater"]),
   (str "security", [str "security", str "alarm", str "security system"]),
   (str "motion", [str "motion", str "motion detection", str "motion sensor", str "movement"])]

def onFrags (k : StrL) : List StrL :=
  [str "turn on " ++ k, str "enable " ++ k, str "activate " ++ k, str "start " ++ k]

def offFrags (k : StrL) : List StrL :=
  [str "turn off " ++ k, str "disable " ++ k, str "deactivate " ++ k, str "stop " ++ k]

/-- Action fragments contributed by one device keyword: a normalized
`turn on <device>` when any turn-on verb phrase occurs, then a normalized
`turn off <device>` when any turn-off verb phrase occurs. -/
def actsForKeyword (tl device k : StrL) : List StrL :=
  (if anyOccurs (onFrags k) tl then [str "turn on " ++ device] else []) ++
  (if anyOccurs (offFrags k) tl then [str "turn off " ++ device] else [])

/-- Device-action fragment collection of the translator: devices in table
order, keywords in list order, with no deduplication. -/
def nlrActions (tl : StrL) : List StrL :=
  (action_map.map fun dk => (dk.2.map fun k => actsForKeyword tl dk.1 k).flatten).flatten

/-- Python `' AND '.join`. -/
def joinAnd : List StrL → StrL
  | [] => []
  | [x] => x
  | x :: rest => x ++ str " AND " ++ joinAnd rest

/-- Python `str.strip()` (whitespace at both ends). -/
def stripStr (s : StrL) : StrL :=
  ((s.dropWhile Char.isWhitespace).reverse.dropWhile Char.isWhitespace).reverse

def ruleWords : List StrL := [str "morning", str "evening", str "afternoon", str "night"]

def sentinelFail : StrL := str "Could not parse command"

/-- Embedding of `NLPProcessor.natural_language_to_rule`: lower-case the
text, collect condition, direct-command and action fragments, then emit a
conditional `IF ... THEN ...` rule when a rule trigger word is present and
both conditions and actions exist, else the `AND`-joined direct fragments,
else the sentinel failure value. -/
def natural_language_to_rule (text : StrL) : StrL :=
  let tl := lowerStr text
  let conditions := nlrConditions tl
  let actions := nlrActions tl
  let direct_commands := nlrDirect tl
  if (occursInL (str "if") tl || occursInL (str "when") tl || anyOccurs ruleWords tl)
      && !conditions.isEmpty && !actions.isEmpty then
    stripStr (str "IF " ++ joinAnd conditions ++ str " THEN " ++ joinAnd actions)
  else if !direct_commands.isEmpty || !actions.isEmpty then
    joinAnd (direct_commands ++ actions)
  else sentinelFail

/-- C1 (counterexample): the claim that `execute_rules` returns exactly the
rule-text strings that caused a change, each exactly once, fails on the code.
At the claim's own input the single returned entry is not the rule's text
(the source prefixes it with a check mark), and a satisfied rule whose two
actions both change device values is reported twice. -/
theorem C1_counterexample :
    ((execute_rules ⟨mkDevices false false false false 26 false (str "17:00"),
        [str "IF temperature > 25 THEN turn on ac"]⟩).2 ≠
      [str "IF temperature > 25 THEN turn on ac"]) ∧
    (execute_rules ⟨mkDevices false false false false 26 false (str "17:00"),
        [str "IF temperature > 25 THEN turn on ac AND turn on lights"]⟩).2 =
      [marked (str "IF temperature > 25 THEN turn on ac AND turn on lights"),
       marked (str "IF temperature > 25 THEN turn on ac AND turn on lights")] := by
  decide

/-- C1 (amended): `execute_rules` returns, in pass order, one entry per
action application that changed a stored device value, each entry being the
rule's text prefixed with a check mark and a space; a rule changing two
devices in one pass is therefore reported twice.  On device state
temperature 26, time 17:00, motion false, ac false with the single rule
`IF temperature > 25 THEN turn on ac`, it sets ac to true and returns
exactly one such entry. -/
theorem C1_amended :
    execute_rules ⟨mkDevices false false false false 26 false (str "17:00"),
        [str "IF temperature > 25 THEN turn on ac"]⟩ =
      (⟨mkDevices false true false false 26 false (str "17:00"),
        [str "IF temperature > 25 THEN turn on ac"]⟩,
       [marked (str "IF temperature > 25 THEN turn on ac")]) ∧
    execute_rules ⟨mkDevices false false false false 26 false (str "17:00"),
        [str "IF temperature > 25 THEN turn on ac AND turn on lights"]⟩ =
      (⟨mkDevices true true false false 26 false (str "17:00"),
        [str "IF temperature > 25 THEN turn on ac AND turn on lights"]⟩,
       [marked (str "IF temperature > 25 THEN turn on ac AND turn on lights"),
        marked (str "IF temperature > 25 THEN turn on ac AND turn on lights")]) := by
  decide

/-- C2 (counterexample): the claim that `natural_language_to_rule` applied
to `Turn off lights` returns exactly `turn off lights` fails on the code:
the synonym list for lights contains both `light` and `lights`, each of
which matches, so the fragment is emitted twice. -/
theorem C2_counterexample :
    natural_language_to_rule (str "Turn off lights") ≠ str "turn off lights" := by
  decide

/-- C2 (amended): `natural_language_to_rule` applied to `Turn off lights`
returns the direct-command string `turn off lights AND turn off lights`,
containing the same action fragment twice (once per matching synonym of the
lights device) and no IF/THEN rule form. -/
theorem C2_amended :
    natural_language_to_rule (str "Turn off lights") =
      str "turn off lights AND turn off lights" ∧
    occursInL (str "IF") (natural_language_to_rule (str "Turn off lights")) = false ∧
    occursInL (str "THEN") (natural_language_to_rule (str "Turn off lights")) = false := by
  decide

/-- C4: the rule text `IF temperature >= 18 AND temperature <= 22 THEN turn
on heating` parses to exactly two temperature conditions, `>= 18` and
`<= 22` (the `> ` and `< ` patterns require a space directly after the
operator and so do not match inside `>= ` or `<= `), and the rule fires at
stored temperatures 18, 20 and 22 (changing heating and being reported) but
not at 17 or 23 (no change, nothing reported). -/
theorem C4_interval_semantics :
    (parse_rule (str "IF temperature >= 18 AND temperature <= 22 THEN turn on heating")).1 =
      [Condition.temp TOp.ge 18, Condition.temp TOp.le 22] ∧
    (∀ t : Int,
      ((parse_rule (str "IF temperature >= 18 AND temperature <= 22 THEN turn on heating")).1.all
        (evalCond (mkDevices false false false false t false (str "17:00"))) = true) ↔
      (18 ≤ t ∧ t ≤ 22)) ∧
    (execute_rules ⟨mkDevices false false false false 18 false (str "17:00"),
        [str "IF temperature >= 18 AND temperature <= 22 THEN turn on heating"]⟩ =
      (⟨mkDevices false false true false 18 false (str "17:00"),
        [str "IF temperature >= 18 AND temperature <= 22 THEN turn on heating"]⟩,
       [marked (str "IF temperature >= 18 AND temperature <= 22 THEN turn on heating")])) ∧
    (execute_rules ⟨mkDevices false false false false 20 false (str "17:00"),
        [str "IF temperature >= 18 AND temperature <= 22 THEN turn on heating"]⟩ =
      (⟨mkDevices false false true false 20 false (str "17:00"),
        [str "IF temperature >= 18 AND temperature <= 22 THEN turn on heating"]⟩,
       [marked (str "IF temperature >= 18 AND temperature <= 22 THEN turn on heating")])) ∧
    (execute_rules ⟨mkDevices false false false false 22 false (str "17:00"),
        [str "IF temperature >= 18 AND temperature <= 22 THEN turn on heating"]⟩ =
      (⟨mkDevices false false true false 22 false (str "17:00"),
        [str "IF temperature >= 18 AND temperature <= 22 THEN turn on heating"]⟩,
       [marked (str "IF temperature >= 18 AND temperature <= 22 THEN turn on heating")])) ∧
    (execute_rules ⟨mkDevices false false false false 17 false (str "17:00"),
        [str "IF temperature >= 18 AND temperature <= 22 THEN turn on heating"]⟩ =
      (⟨mkDevices false false false false 17 false (str "17:00"),
        [str "IF temperature >= 18 AND temperature <= 22 THEN turn on heating"]⟩,
       [])) ∧
    (execute_rules ⟨mkDevices false false false false 23 false (str "17:00"),
        [str "IF temperature >= 18 AND temperature <= 22 THEN turn on heating"]⟩ =
      (⟨mkDevices false false false false 23 false (str "17:00"),
        [str "IF temperature >= 18 AND temperature <= 22 THEN turn on heating"]⟩,
       [])) := by
  refine ⟨by decide, ?_, by decide, by decide, by decide, by decide, by decide⟩
  intro t
  have hp : (parse_rule (str "IF temperature >= 18 AND temperature <= 22 THEN turn on heating")).1 =
      [Condition.temp TOp.ge 18, Condition.temp TOp.le 22] := by decide
  have hl : lookupD (str "temperature")
      (mkDevices false false false false t false (str "17:00")) = some (Value.vi t) := rfl
  rw [hp]
  simp only [List.all_cons, List.all_nil, Bool.and_true, Bool.and_eq_true, evalCond, hl,
    decide_eq_true_eq]

/-- C6: `natural_language_to_rule` applied to `If it is hot turn on ac`
returns exactly the DSL rule string `IF temperature > 25 THEN turn on ac`. -/
theorem C6_translate_hot_ac :
    natural_language_to_rule (str "If it is hot turn on ac") =
      str "IF temperature > 25 THEN turn on ac" := by
  decide

theorem toLowerCh_of_not {c : Char} (h : ¬ (65 ≤ c.toNat ∧ c.toNat ≤ 90)) :
    toLowerCh c = c := by
  unfold toLowerCh
  exact dif_neg h

theorem toNat_toLowerCh (c : Char) (h : 65 ≤ c.toNat ∧ c.toNat ≤ 90) :
    (toLowerCh c).toNat = c.toNat + 32 := by
  unfold toLowerCh
  rw [dif_pos h]
  show (UInt32.ofNat (c.toNat + 32)).toNat = c.toNat + 32
  show (c.toNat + 32) % UInt32.size = c.toNat + 32
  have hs : UInt32.size = 4294967296 := rfl
  exact Nat.mod_eq_of_lt (by omega)

theorem toLowerCh_idem (c : Char) : toLowerCh (toLowerCh c) = toLowerCh c := by
  by_cases h : 65 ≤ c.toNat ∧ c.toNat ≤ 90
  · have h2 : (toLowerCh c).toNat = c.toNat + 32 := toNat_toLowerCh c h
    exact toLowerCh_of_not (by omega)
  · rw [toLowerCh_of_not h, toLowerCh_of_not h]

theorem lowerStr_idem (s : StrL) : lowerStr (lowerStr s) = lowerStr s := by
  induction s with
  | nil => rfl
  | cons c t ih =>
    show toLowerCh (toLowerCh c) :: lowerStr (lowerStr t) = toLowerCh c :: lowerStr t
    rw [toLowerCh_idem, ih]

/-- C10: the translator is case-insensitive in its input: for every input
string `t`, `natural_language_to_rule t` equals
`natural_language_to_rule` of the lower-cased `t`, because the function
lower-cases the text before all matching. -/
theorem C10_case_insensitive (t : StrL) :
    natural_language_to_rule t = natural_language_to_rule (lowerStr t) := by
  simp only [natural_language_to_rule, lowerStr_idem]

/-- C7: calling `add_rule` with an empty rule text or with a text already
present in the collection is rejected: the system, in particular the rule
collection and its length, is left completely unchanged. -/
theorem C7_add_rule_rejected (sys : SmartHomeSystem) (rule : StrL)
    (h : rule = [] ∨ rule ∈ sys.rules) :
    add_rule sys rule = sys ∧ (add_rule sys rule).rules.length = sys.rules.length := by
  have hn : ¬ (rule ≠ [] ∧ rule ∉ sys.rules) := by
    rcases h with h | h
    · intro hc
      exact hc.1 h
    · intro hc
      exact hc.2 h
  unfold add_rule
  rw [if_neg hn]
  exact ⟨rfl, rfl⟩

theorem C7_witness :
    add_rule ⟨default_devices, default_rules⟩ (str "IF temperature > 25 THEN turn on ac") =
      ⟨default_devices, default_rules⟩ ∧
    add_rule ⟨default_devices, default_rules⟩ [] = ⟨default_devices, default_rules⟩ :=
  ⟨(C7_add_rule_rejected _ _ (Or.inr (by decide))).1,
   (C7_add_rule_rejected _ _ (Or.inl rfl)).1⟩

/-- C8: `natural_language_to_rule` is a total function (it never raises),
it returns the sentinel failure value `Could not parse command` on the input
`xyzzy`, and in general it returns that sentinel whenever no condition,
direct-setter, or device-action fragment is recognized in the text. -/
theorem C8_translate_sentinel :
    natural_language_to_rule (str "xyzzy") = sentinelFail ∧
    ∀ t : StrL, nlrConditions (lowerStr t) = [] → nlrActions (lowerStr t) = [] →
      nlrDirect (lowerStr t) = [] → natural_language_to_rule t = sentinelFail := by
  constructor
  · decide
  · intro t hc ha hd
    simp only [natural_language_to_rule]
    rw [hc, ha, hd]
    simp

theorem C8_witness :
    nlrConditions (lowerStr (str "xyzzy")) = [] ∧
    natural_language_to_rule (str "xyzzy") = sentinelFail :=
  ⟨by decide, C8_translate_sentinel.2 (str "xyzzy") (by decide) (by decide) (by decide)⟩

theorem keysOf_setD_of_mem {k : StrL} (v : Value) {d : DeviceMap} (h : k ∈ keysOf d) :
    keysOf (setD k v d) = keysOf d := by
  induction d with
  | nil => simp [keysOf] at h
  | cons p t ih =>
    obtain ⟨k1, v1⟩ := p
    by_cases hk : k = k1
    · subst hk
      simp [setD, keysOf]
    · have hm : k ∈ keysOf t := by
        simp only [keysOf, List.map_cons, List.mem_cons] at h
        rcases h with h | h
        · exact absurd h hk
        · exact h
      simp only [setD, if_neg hk, keysOf, List.map_cons, List.cons.injEq, true_and]
      exact ih hm

theorem keysOf_applyActs (rule : StrL) (acts : List (StrL × Bool)) (d : DeviceMap)
    (h : ∀ a ∈ acts, a.1 ∈ keysOf d) :
    keysOf (applyActs rule acts d).1 = keysOf d := by
  induction acts generalizing d with
  | nil => rfl
  | cons a rest ih =>
    have h1 : a.1 ∈ keysOf d := h a (by simp)
    have hk : keysOf (setD a.1 (Value.vb a.2) d) = keysOf d := keysOf_setD_of_mem _ h1
    have h2 : ∀ b ∈ rest, b.1 ∈ keysOf (setD a.1 (Value.vb a.2) d) := by
      intro b hb
      rw [hk]
      exact h b (by simp [hb])
    show keysOf (applyActs rule rest (setD a.1 (Value.vb a.2) d)).1 = keysOf d
    rw [ih _ h2, hk]

theorem parse_rule_act_key {rule : StrL} {a : StrL × Bool} (h : a ∈ (parse_rule rule).2) :
    a.1 ∈ deviceKeys := by
  have hm : a ∈ action_patterns.map Prod.snd := by
    have h2 : a ∈ (action_patterns.filter fun p => occursInL p.1 rule).map Prod.snd := h
    rw [List.mem_map] at h2 ⊢
    obtain ⟨p, hp, hpa⟩ := h2
    exact ⟨p, List.mem_of_mem_filter hp, hpa⟩
  simp only [action_patterns, List.map_cons, List.map_nil, List.mem_cons,
    List.not_mem_nil, or_false] at hm
  rcases hm with rfl | rfl | rfl | rfl | rfl | rfl | rfl | rfl | rfl | rfl <;> decide

theorem keysOf_execPass (rules : List StrL) (d : DeviceMap)
    (h : keysOf d = deviceKeys) : keysOf (execPass rules d).1 = deviceKeys := by
  induction rules generalizing d with
  | nil => exact h
  | cons r rest ih =>
    have hr : keysOf (runRuleD r d).1 = deviceKeys := by
      simp only [runRuleD]
      split
      · rw [keysOf_applyActs]
        · exact h
        · intro a ha
          rw [h]
          exact parse_rule_act_key ha
      · exact h
    show keysOf (execPass rest (runRuleD r d).1).1 = deviceKeys
    exact ih _ hr

/-- C9: every core operation preserves the device-state key set
lights, ac, heating, security, temperature, motion, time: a pass of
`execute_rules` writes only existing boolean device keys, and `add_rule`
and `remove_rule` do not touch the device state at all (`parse_rule` and
`natural_language_to_rule` are pure functions of their text argument and
carry no device state). -/
theorem C9_key_set_preserved (sys : SmartHomeSystem) (rule : StrL) (index : Int)
    (h : keysOf sys.devices = deviceKeys) :
    keysOf (execute_rules sys).1.devices = deviceKeys ∧
    keysOf (add_rule sys rule).devices = deviceKeys ∧
    keysOf (remove_rule sys index).devices = deviceKeys := by
  refine ⟨keysOf_execPass sys.rules sys.devices h, ?_, ?_⟩
  · unfold add_rule
    split <;> exact h
  · unfold remove_rule
    split <;> exact h

theorem C9_witness :
    keysOf (⟨default_devices, default_rules⟩ : SmartHomeSystem).devices = deviceKeys ∧
    keysOf (execute_rules ⟨default_devices, default_rules⟩).1.devices = deviceKeys :=
  ⟨by decide, (C9_key_set_preserved ⟨default_devices, default_rules⟩ [] 0 (by decide)).1⟩

theorem strPre_of_append {p q s : StrL} (h : strPre (p ++ q) s = true) : strPre p s = true := by
  induction p generalizing s with
  | nil => rfl
  | cons a as ih =>
    cases s with
    | nil => simp [strPre] at h
    | cons b bs =>
      simp only [List.cons_append, strPre, Bool.and_eq_true] at h ⊢
      exact ⟨h.1, ih h.2⟩

theorem occursInL_of_append {p q s : StrL} (h : occursInL (p ++ q) s = true) :
    occursInL p s = true := by
  induction s with
  | nil =>
    simp only [occursInL] at h ⊢
    exact strPre_of_append h
  | cons c t ih =>
    simp only [occursInL, Bool.or_eq_true] at h ⊢
    rcases h with h | h
    · exact Or.inl (strPre_of_append h)
    · exact Or.inr (ih h)

theorem searchLitThen_occurs {lit : StrL} {cap : StrL → Option StrL} {s v : StrL}
    (h : searchLitThen lit cap s = some v) : occursInL lit s = true := by
  induction s with
  | nil => simp [searchLitThen] at h
  | cons c t ih =>
    by_cases hp : strPre lit (c :: t) = true
    · simp [occursInL, hp]
    · have hp2 : strPre lit (c :: t) = false := by
        simpa using hp
      simp only [searchLitThen, hp2, Bool.false_eq_true, if_false] at h
      simp only [occursInL, hp2, Bool.false_or]
      exact ih h

theorem no_temperature_no_temp_search {rule lit : StrL} (q : StrL)
    (hl : lit = str "temperature" ++ q)
    (h : occursInL (str "temperature") rule = false) :
    searchLitThen lit digitsCap rule = none := by
  cases hs : searchLitThen lit digitsCap rule with
  | none => rfl
  | some v =>
    exfalso
    have ho := searchLitThen_occurs hs
    rw [hl] at ho
    have ho2 := occursInL_of_append ho
    rw [h] at ho2
    exact Bool.false_ne_true ho2

/-- C5: a rule text of the translator's compound time-of-day form (such as
`IF time >= 18:00 AND time < 22:00 THEN turn on lights`) contains no
`temperature` phrase, no `time is` substring and no `motion detected`
substring, and every such rule text parses to zero conditions; consequently
`execute_rules` treats the example rule as always true (vacuous AND) and
applies its action regardless of the stored time value. -/
theorem C5_unparsed_translator_time_rule :
    (∀ rule : StrL, occursInL (str "temperature") rule = false →
      occursInL (str "time is") rule = false →
      occursInL (str "motion detected") rule = false →
      (parse_rule rule).1 = []) ∧
    occursInL (str "temperature") (str "IF time >= 18:00 AND time < 22:00 THEN turn on lights") = false ∧
    (parse_rule (str "IF time >= 18:00 AND time < 22:00 THEN turn on lights")).1 = [] ∧
    (∀ ti : StrL,
      execute_rules ⟨mkDevices false false false false 22 false ti,
          [str "IF time >= 18:00 AND time < 22:00 THEN turn on lights"]⟩ =
        (⟨mkDevices true false false false 22 false ti,
          [str "IF time >= 18:00 AND time < 22:00 THEN turn on lights"]⟩,
         [marked (str "IF time >= 18:00 AND time < 22:00 THEN turn on lights")])) := by
  refine ⟨?_, by decide, by decide, fun ti => rfl⟩
  intro rule h1 h2 h3
  have k1 : searchLitThen (str "temperature > ") digitsCap rule = none :=
    no_temperature_no_temp_search (str " > ") rfl h1
  have k2 : searchLitThen (str "temperature < ") digitsCap rule = none :=
    no_temperature_no_temp_search (str " < ") rfl h1
  have k3 : searchLitThen (str "temperature >= ") digitsCap rule = none :=
    no_temperature_no_temp_search (str " >= ") rfl h1
  have k4 : searchLitThen (str "temperature <= ") digitsCap rule = none :=
    no_temperature_no_temp_search (str " <= ") rfl h1
  simp only [parse_rule, tempPatterns, List.filterMap_cons, List.filterMap_nil,
    k1, k2, k3, k4, Option.map_none', h2, h3, Bool.false_eq_true, if_false,
    List.append_nil, List.nil_append]

theorem lookupD_setD_self (k : StrL) (v : Value) (d : DeviceMap) :
    lookupD k (setD k v d) = some v := by
  induction d with
  | nil => simp [setD, lookupD]
  | cons p t ih =>
    obtain ⟨k1, v1⟩ := p
    by_cases hk : k = k1
    · simp [setD, lookupD, hk]
    · simp only [setD, if_neg hk, lookupD]
      exact ih

theorem lookupD_setD_ne {k k1 : StrL} (h : k ≠ k1) (v : Value) (d : DeviceMap) :
    lookupD k (setD k1 v d) = lookupD k d := by
  induction d with
  | nil => simp [setD, lookupD, h]
  | cons p t ih =>
    obtain ⟨k2, v2⟩ := p
    by_cases hk : k1 = k2
    · subst hk
      simp [setD, lookupD, h]
    · simp only [setD, if_neg hk, lookupD]
      by_cases hk2 : k = k2
      · simp [hk2]
      · rw [if_neg hk2, if_neg hk2]
        exact ih

theorem setD_lookupD_eq {k : StrL} {v : Value} {d : DeviceMap}
    (h : lookupD k d = some v) : setD k v d = d := by
  induction d with
  | nil => simp [lookupD] at h
  | cons p t ih =>
    obtain ⟨k1, v1⟩ := p
    by_cases hk : k = k1
    · subst hk
      have hv : v1 = v := by
        simpa [lookupD] using h
      simp [setD, hv]
    · simp only [lookupD, if_neg hk] at h
      simp [setD, if_neg hk, ih h]

theorem evalCond_setD_ne {k : StrL} (v : Value) (d : DeviceMap) (c : Condition)
    (h1 : k ≠ str "temperature") (h2 : k ≠ str "time") (h3 : k ≠ str "motion") :
    evalCond (setD k v d) c = evalCond d c := by
  cases c with
  | temp op tv => simp only [evalCond, lookupD_setD_ne (Ne.symm h1)]
  | timeC tv => simp only [evalCond, lookupD_setD_ne (Ne.symm h2)]
  | motionC b => simp only [evalCond, lookupD_setD_ne (Ne.symm h3)]

theorem evalCond_applyActs (rule : StrL) (acts : List (StrL × Bool)) :
    (∀ a ∈ acts, a.1 ≠ str "temperature" ∧ a.1 ≠ str "time" ∧ a.1 ≠ str "motion") →
    ∀ d : DeviceMap, evalCond (applyActs rule acts d).1 = evalCond d := by
  induction acts with
  | nil => exact fun _ _ => rfl
  | cons a rest ih =>
    intro h d
    have ha := h a (by simp)
    show evalCond (applyActs rule rest (setD a.1 (Value.vb a.2) d)).1 = evalCond d
    rw [ih (fun b hb => h b (by simp [hb])) (setD a.1 (Value.vb a.2) d)]
    funext c
    exact evalCond_setD_ne _ _ c ha.1 ha.2.1 ha.2.2

theorem evalCond_runRuleD (r : StrL) (d : DeviceMap)
    (h : ∀ a ∈ (parse_rule r).2, a.1 ≠ str "temperature" ∧ a.1 ≠ str "time" ∧ a.1 ≠ str "motion") :
    evalCond (runRuleD r d).1 = evalCond d := by
  simp only [runRuleD]
  split
  · exact evalCond_applyActs r _ h d
  · rfl

theorem evalCond_execPass (R : List StrL) :
    (∀ r ∈ R, ∀ a ∈ (parse_rule r).2,
      a.1 ≠ str "temperature" ∧ a.1 ≠ str "time" ∧ a.1 ≠ str "motion") →
    ∀ d : DeviceMap, evalCond (execPass R d).1 = evalCond d := by
  induction R with
  | nil => exact fun _ _ => rfl
  | cons r rest ih =>
    intro h d
    show evalCond (execPass rest (runRuleD r d).1).1 = evalCond d
    rw [ih (fun r2 h2 => h r2 (by simp [h2])) (runRuleD r d).1]
    exact evalCond_runRuleD r d (h r (by simp))

theorem applyActs_lookup_preserve (rule : StrL) (acts : List (StrL × Bool)) {k : StrL} {v : Value} :
    (∀ b ∈ acts, b.1 = k → Value.vb b.2 = v) →
    ∀ d : DeviceMap, lookupD k d = some v → lookupD k (applyActs rule acts d).1 = some v := by
  induction acts with
  | nil => exact fun _ _ h => h
  | cons b rest ih =>
    intro hsame d hpre
    show lookupD k (applyActs rule rest (setD b.1 (Value.vb b.2) d)).1 = some v
    refine ih (fun b2 hb2 hk => hsame b2 (by simp [hb2]) hk) _ ?_
    by_cases hb : b.1 = k
    · subst hb
      rw [lookupD_setD_self]
      exact congrArg some (hsame b (by simp) rfl)
    · rw [lookupD_setD_ne (fun he => hb he.symm)]
      exact hpre

theorem execPass_lookup_preserve (R : List StrL) {k : StrL} {v : Value} :
    (∀ r ∈ R, ∀ b ∈ (parse_rule r).2, b.1 = k → Value.vb b.2 = v) →
    ∀ d : DeviceMap, lookupD k d = some v → lookupD k (execPass R d).1 = some v := by
  induction R with
  | nil => exact fun _ _ h => h
  | cons r rest ih =>
    intro hsame d hpre
    show lookupD k (execPass rest (runRuleD r d).1).1 = some v
    refine ih (fun r2 h2 => hsame r2 (by simp [h2])) _ ?_
    simp only [runRuleD]
    split
    · exact applyActs_lookup_preserve r _ (fun b hb => hsame r (by simp) b hb) d hpre
    · exact hpre

theorem applyActs_lookup (rule : StrL) (acts : List (StrL × Bool)) :
    (∀ a ∈ acts, ∀ b ∈ acts, a.1 = b.1 → a.2 = b.2) →
    ∀ d : DeviceMap, ∀ a ∈ acts, lookupD a.1 (applyActs rule acts d).1 = some (Value.vb a.2) := by
  induction acts with
  | nil =>
    intro _ d a ha
    exact absurd ha (List.not_mem_nil a)
  | cons x rest ih =>
    intro hcons d a ha
    show lookupD a.1 (applyActs rule rest (setD x.1 (Value.vb x.2) d)).1 = some (Value.vb a.2)
    rcases List.mem_cons.mp ha with rfl | hr
    · exact applyActs_lookup_preserve rule rest
        (fun b hb hk => congrArg Value.vb (hcons b (by simp [hb]) a (by simp) hk))
        _ (lookupD_setD_self a.1 (Value.vb a.2) d)
    · exact ih (fun a2 h2 b2 hb2 => hcons a2 (by simp [h2]) b2 (by simp [hb2])) _ a hr

theorem parse_rule_act_not_tt {rule : StrL} {a : StrL × Bool} (h : a ∈ (parse_rule rule).2) :
    a.1 ≠ str "temperature" ∧ a.1 ≠ str "time" := by
  have hm : a ∈ action_patterns.map Prod.snd := by
    have h2 : a ∈ (action_patterns.filter fun p => occursInL p.1 rule).map Prod.snd := h
    rw [List.mem_map] at h2 ⊢
    obtain ⟨p, hp, hpa⟩ := h2
    exact ⟨p, List.mem_of_mem_filter hp, hpa⟩
  simp only [action_patterns, List.map_cons, List.map_nil, List.mem_cons,
    List.not_mem_nil, or_false] at hm
  rcases hm with rfl | rfl | rfl | rfl | rfl | rfl | rfl | rfl | rfl | rfl <;> exact ⟨by decide, by decide⟩

theorem execPass_post (R : List StrL) :
    (∀ r ∈ R, ∀ a ∈ (parse_rule r).2,
      a.1 ≠ str "temperature" ∧ a.1 ≠ str "time" ∧ a.1 ≠ str "motion") →
    (∀ r ∈ R, ∀ a ∈ (parse_rule r).2, ∀ r2 ∈ R, ∀ b ∈ (parse_rule r2).2,
      a.1 = b.1 → a.2 = b.2) →
    ∀ d : DeviceMap, ∀ r ∈ R,
      ((parse_rule r).1.all (evalCond d) && !(parse_rule r).2.isEmpty) = true →
      ∀ a ∈ (parse_rule r).2, lookupD a.1 (execPass R d).1 = some (Value.vb a.2) := by
  induction R with
  | nil =>
    intro _ _ d r hr
    exact absurd hr (List.not_mem_nil r)
  | cons r0 rest ih =>
    intro hgood hcons d r hr htrig a ha
    show lookupD a.1 (execPass rest (runRuleD r0 d).1).1 = some (Value.vb a.2)
    rcases List.mem_cons.mp hr with rfl | hr2
    · have hrun : runRuleD r d = applyActs r (parse_rule r).2 d := by
        simp only [runRuleD]
        rw [if_pos htrig]
      rw [hrun]
      exact execPass_lookup_preserve rest
        (fun r2 h2 b hb hk => congrArg Value.vb (hcons r2 (by simp [h2]) b hb r (by simp) a ha hk))
        _
        (applyActs_lookup r (parse_rule r).2
          (fun aA hA bB hB hk => hcons r (by simp) aA hA r (by simp) bB hB hk) d a ha)
    · have hinv : evalCond (runRuleD r0 d).1 = evalCond d :=
        evalCond_runRuleD r0 d (hgood r0 (by simp))
      have htrig2 : ((parse_rule r).1.all (evalCond (runRuleD r0 d).1) &&
          !(parse_rule r).2.isEmpty) = true := by
        rw [hinv]
        exact htrig
      exact ih (fun r2 h2 => hgood r2 (by simp [h2]))
        (fun rA hA aA haA rB hB bB hbB hk =>
          hcons rA (by simp [hA]) aA haA rB (by simp [hB]) bB hbB hk)
        _ r hr2 htrig2 a ha

theorem applyActs_noop (rule : StrL) (acts : List (StrL × Bool)) :
    ∀ d : DeviceMap, (∀ a ∈ acts, lookupD a.1 d = some (Value.vb a.2)) →
    applyActs rule acts d = (d, []) := by
  induction acts with
  | nil => exact fun _ _ => rfl
  | cons a rest ih =>
    intro d h
    have h1 : lookupD a.1 d = some (Value.vb a.2) := h a (by simp)
    have hd1 : setD a.1 (Value.vb a.2) d = d := setD_lookupD_eq h1
    show ((applyActs rule rest (setD a.1 (Value.vb a.2) d)).1,
      (if lookupD a.1 d = some (Value.vb a.2) then ([] : List StrL) else [marked rule]) ++
        (applyActs rule rest (setD a.1 (Value.vb a.2) d)).2) = (d, [])
    rw [hd1, if_pos h1, ih d (fun b hb => h b (by simp [hb]))]
    rfl

theorem execPass_noop (R : List StrL) :
    ∀ s : DeviceMap, (∀ r ∈ R,
      ((parse_rule r).1.all (evalCond s) && !(parse_rule r).2.isEmpty) = true →
      ∀ a ∈ (parse_rule r).2, lookupD a.1 s = some (Value.vb a.2)) →
    execPass R s = (s, []) := by
  induction R with
  | nil => exact fun _ _ => rfl
  | cons r rest ih =>
    intro s h
    have hrun : runRuleD r s = (s, []) := by
      simp only [runRuleD]
      split
      · rename_i htrig
        exact applyActs_noop r _ s (h r (by simp) htrig)
      · rfl
    calc execPass (r :: rest) s
        = ((execPass rest (runRuleD r s).1).1,
           (runRuleD r s).2 ++ (execPass rest (runRuleD r s).1).2) := rfl
      _ = ((execPass rest s).1, [] ++ (execPass rest s).2) := by rw [hrun]
      _ = (s, []) := by
          rw [ih s (fun r2 h2 => h r2 (by simp [h2]))]
          rfl

/-- C3 (counterexample): it is not true that for every rule collection and
device state a second consecutive `execute_rules` call reports nothing: with
rules `IF motion detected THEN turn on security` and `IF temperature > 25
THEN turn on motion` at temperature 26, the first pass turns motion on after
the motion rule was already checked, so the second pass newly triggers the
motion rule and reports it. -/
theorem C3_counterexample :
    (execute_rules (execute_rules ⟨mkDevices false false false false 26 false (str "17:00"),
        [str "IF motion detected THEN turn on security",
         str "IF temperature > 25 THEN turn on motion"]⟩).1).2 ≠ [] := by
  decide

/-- C3 (amended): for every rule collection in which no parsed action writes
the motion device (the only device conditions can read that actions can
write) and no two parsed actions across the collection assign different
values to the same device, and for every device state, calling
`execute_rules` twice in succession with no external mutation in between
yields an empty triggered list on the second call: once every stored value
matches its action's target nothing is re-reported. -/
theorem C3_amended (sys : SmartHomeSystem)
    (hm : ∀ r ∈ sys.rules, ∀ a ∈ (parse_rule r).2, a.1 ≠ str "motion")
    (hc : ∀ r ∈ sys.rules, ∀ a ∈ (parse_rule r).2, ∀ r2 ∈ sys.rules,
      ∀ b ∈ (parse_rule r2).2, a.1 = b.1 → a.2 = b.2) :
    (execute_rules (execute_rules sys).1).2 = [] := by
  have hgood : ∀ r ∈ sys.rules, ∀ a ∈ (parse_rule r).2,
      a.1 ≠ str "temperature" ∧ a.1 ≠ str "time" ∧ a.1 ≠ str "motion" := by
    intro r hr a ha
    have htt := parse_rule_act_not_tt ha
    exact ⟨htt.1, htt.2, hm r hr a ha⟩
  show (execPass sys.rules (execPass sys.rules sys.devices).1).2 = []
  have hsat : ∀ r ∈ sys.rules,
      ((parse_rule r).1.all (evalCond (execPass sys.rules sys.devices).1) &&
        !(parse_rule r).2.isEmpty) = true →
      ∀ a ∈ (parse_rule r).2,
        lookupD a.1 (execPass sys.rules sys.devices).1 = some (Value.vb a.2) := by
    intro r hr htrig a ha
    rw [evalCond_execPass sys.rules hgood sys.devices] at htrig
    exact execPass_post sys.rules hgood hc sys.devices r hr htrig a ha
  rw [execPass_noop sys.rules _ hsat]

theorem C3_amended_witness :
    (∀ r ∈ default_rules, ∀ a ∈ (parse_rule r).2, a.1 ≠ str "motion") ∧
    (execute_rules (execute_rules ⟨default_devices, default_rules⟩).1).2 = [] :=
  ⟨by decide, C3_amended ⟨default_devices, default_rules⟩ (by decide) (by decide)⟩

theorem C5_witness :
    occursInL (str "temperature") (str "IF time >= 18:00 AND time < 22:00 THEN turn on lights") = false ∧
    (parse_rule (str "IF time >= 18:00 AND time < 22:00 THEN turn on lights")).1 = [] :=
  ⟨by decide, C5_unparsed_translator_time_rule.1
    (str "IF time >= 18:00 AND time < 22:00 THEN turn on lights")
    (by decide) (by decide) (by decide)⟩
